import Mathlib

/-!
Verification of the card data model and batch-import pipeline of the
fifa-card-generator repository.

The definitions below are a shallow embedding of the TypeScript sources:
  - `CardService` (src/app/services/card.service.ts): rating aggregation,
    seeded RNG, stat randomization, input sanitization, player update.
  - `BatchService` (src/app/services/batch.service.ts): CSV/JSON import,
    row validation, photo matching, progress reporting.

Machine arithmetic conventions: JavaScript numbers are IEEE doubles, but on
the integer ranges exercised here (32-bit hashes, skill values in [1,99],
sums below 2^46) every operation the code performs is exact in doubles, so
we model them with `Int`/`Nat`/`ℚ`.  JS `x | 0` / `x & x` truncation to a
signed 32-bit integer is modelled by `toInt32`; the JS `%` operator
(truncated remainder, sign of the dividend) is modelled by `Int.tmod`.
-/

/-- The six-skill vector of `PlayerStats` (player.model.ts). -/
structure PlayerStats where
  technical : Int
  leadership : Int
  creativity : Int
  reliability : Int
  collaboration : Int
  adaptability : Int
deriving DecidableEq

/-- `Object.values(stats)` in field declaration order, as used by
`calculateOverallRating`. -/
def statsValues (s : PlayerStats) : List Int :=
  [s.technical, s.leadership, s.creativity, s.reliability,
   s.collaboration, s.adaptability]

/-- `CardService.calculateOverallRating`: `Math.round` of the arithmetic mean
of the six stats.  `Math.round x = ⌊x + 1/2⌋` (half-integers round toward
positive infinity), and for `x = sum/6` this equals `⌊(sum + 3)/6⌋`, i.e.
floor division by 6 shifted by 3; `calculateOverallRating_eq_round` below
proves this equal to Mathlib's `round` of the rational mean. -/
def calculateOverallRating (s : PlayerStats) : Int :=
  Int.fdiv ((statsValues s).sum + 3) 6

/-- The central entity (player.model.ts `PlayerData`).  Timestamps are
abstracted to `Nat` clock readings supplied by the caller; optional string
payloads (photo, logo) are `Option String`. -/
structure PlayerData where
  id : String
  name : String
  position : String
  nationality : String
  rating : Int
  manualRating : Bool
  stats : PlayerStats
  backgroundTheme : String
  profilePhoto : Option String := none
  customLogo : Option String := none
  createdAt : Nat
  updatedAt : Nat
deriving DecidableEq

/-- Whitespace characters removed by `String.prototype.trim` / matched by the
regexes used in the sources (restricted to the ASCII whitespace actually
exercised by the pipeline). -/
def isJsWhitespace (c : Char) : Bool :=
  c = ' ' || c = '\t' || c = '\n' || c = '\r' || c = '\x0b' || c = '\x0c'

/-- Trim whitespace from both ends of a character list (JS `trim`). -/
def trimChars (s : List Char) : List Char :=
  ((s.dropWhile isJsWhitespace).reverse.dropWhile isJsWhitespace).reverse

/-- JS `String.prototype.trim`. -/
def strTrim (s : String) : String := String.mk (trimChars s.data)

/-- JS `String.prototype.toLowerCase` (ASCII range). -/
def toLowerStr (s : String) : String := String.mk (s.data.map Char.toLower)

/-- Case-insensitive prefix test: does `w` (already lower-case) occur at the
head of `s` up to case?  Used to model a case-insensitive regex match. -/
def isPrefixCI : List Char → List Char → Bool
  | [], _ => true
  | _ :: _, [] => false
  | a :: as, b :: bs => (b.toLower = a.toLower) && isPrefixCI as bs

/-- One pass of `sanitized.replace(new RegExp(word, 'gi'), '***')`: scan left
to right, replacing each leftmost non-overlapping case-insensitive
occurrence of `w` by `***`.  The fuel argument starts at the length of the
scanned list and strictly dominates it, so the fuel-exhausted branch is
unreachable; it only makes the recursion structural. -/
def maskWordAux (w : List Char) : Nat → List Char → List Char
  | _, [] => []
  | 0, s => s
  | fuel + 1, c :: cs =>
    if isPrefixCI w (c :: cs) then
      '*' :: '*' :: '*' :: maskWordAux w fuel (List.drop (w.length - 1) cs)
    else
      c :: maskWordAux w fuel cs

/-- Replace every case-insensitive occurrence of `w` in `s` by `***`. -/
def maskWord (w : List Char) (s : List Char) : List Char :=
  maskWordAux w s.length s

/-- The static blocklist of `CardService.sanitizeInput`. -/
def blockedWords : List String := ["test", "dummy", "fake"]

/-- `CardService.sanitizeInput`: trim, mask each blocked word (in blocklist
order), then truncate to `maxLength - 3` characters plus an ellipsis when the
masked text is longer than `maxLength`.  JS `substring` clamps a negative end
index to 0, which matches `Nat` truncated subtraction in `List.take`. -/
def sanitizeInput (input : String) (maxLength : Nat := 50) : String :=
  let trimmed := trimChars input.data
  let masked := blockedWords.foldl (fun acc w => maskWord w.data acc) trimmed
  if maxLength < masked.length then
    String.mk (masked.take (maxLength - 3) ++ ['.', '.', '.'])
  else
    String.mk masked

/-- The position whitelist of `BatchService.validatePosition`. -/
def validPositions : List String :=
  ["DEV", "OPS", "DATA", "PM", "QA", "UX", "SEC", "ARCH"]

/-- JS `String.prototype.toUpperCase` (ASCII range). -/
def toUpperStr (s : String) : String := String.mk (s.data.map Char.toUpper)

/-- `BatchService.validatePosition` on a string argument: upper-case, keep if
whitelisted, otherwise fall back to `DEV`. -/
def validatePosition (position : String) : String :=
  if validPositions.contains (toUpperStr position) then toUpperStr position
  else "DEV"

/-- The theme whitelist of `BatchService.validateTheme` — note that the
source lists only these four themes. -/
def validThemes : List String :=
  ["gold-classic", "dark-mode-it", "silver-modern", "bronze-vintage"]

/-- `BatchService.validateTheme`: keep a whitelisted theme, otherwise fall
back to `gold-classic`.  (No case normalization in the source.) -/
def validateTheme (theme : String) : String :=
  if validThemes.contains theme then theme else "gold-classic"

/-- Decimal digit run to a number (for `parseInt`). -/
def digitsToNat (ds : List Char) : Nat :=
  ds.foldl (fun n c => n * 10 + (c.toNat - 48)) 0

/-- Leading decimal-digit run of a character list, if non-empty. -/
def parseDigits (cs : List Char) : Option Nat :=
  let ds := cs.takeWhile Char.isDigit
  if ds.isEmpty then none else some (digitsToNat ds)

/-- JS `parseInt(s, 10)`: skip leading whitespace, optional sign, then the
leading run of decimal digits; `NaN` (here `none`) when no digit follows.
(The hexadecimal corner of `parseInt` is never exercised by the pipeline.) -/
def parseIntJS (s : String) : Option Int :=
  match trimChars s.data with
  | '-' :: rest => (parseDigits rest).map (fun n => -(n : Int))
  | '+' :: rest => (parseDigits rest).map (fun n => (n : Int))
  | cs => (parseDigits cs).map (fun n => (n : Int))

/-- `Math.max(1, Math.min(99, n))`. -/
def clamp99 (n : Int) : Int := max 1 (min 99 n)

/-- `Partial<PlayerData>` as passed to `CardService.updatePlayer`: each field
is either absent (`none`) or supplies a new value. -/
structure PlayerPartial where
  id : Option String := none
  name : Option String := none
  position : Option String := none
  nationality : Option String := none
  rating : Option Int := none
  manualRating : Option Bool := none
  stats : Option PlayerStats := none
  backgroundTheme : Option String := none
  profilePhoto : Option String := none
  customLogo : Option String := none
  createdAt : Option Nat := none
deriving DecidableEq

/-- `CardService.updatePlayer`: spread the partial over the current player,
refresh `updatedAt`, then — only when the partial's own `manualRating` is
falsy AND the partial carries a `stats` object — recompute the rating from
the (new) stats.  Note the guard reads `player.manualRating` (the partial),
not the merged record. -/
def updatePlayer (current : PlayerData) (p : PlayerPartial) (now : Nat) : PlayerData :=
  let updated : PlayerData :=
    { id := p.id.getD current.id
      name := p.name.getD current.name
      position := p.position.getD current.position
      nationality := p.nationality.getD current.nationality
      rating := p.rating.getD current.rating
      manualRating := p.manualRating.getD current.manualRating
      stats := p.stats.getD current.stats
      backgroundTheme := p.backgroundTheme.getD current.backgroundTheme
      profilePhoto := (p.profilePhoto.map some).getD current.profilePhoto
      customLogo := (p.customLogo.map some).getD current.customLogo
      createdAt := p.createdAt.getD current.createdAt
      updatedAt := now }
  if p.manualRating.getD false = false ∧ p.stats.isSome then
    { updated with rating := calculateOverallRating updated.stats }
  else
    updated

/-- `CardService.createDefaultPlayer`, with the nondeterministic id and clock
supplied as parameters. -/
def createDefaultPlayer (id : String) (now : Nat) : PlayerData :=
  { id := id
    name := "Larry Mota"
    position := "DEV"
    nationality := "FR"
    rating := 85
    manualRating := false
    stats := ⟨88, 82, 90, 85, 83, 87⟩
    backgroundTheme := "gold-classic"
    createdAt := now
    updatedAt := now }

/-- Truncation of an integer to a signed 32-bit value, as performed by the JS
bitwise operators (`<< 5` and `& hash`) in `CardService.seededRandom`. -/
def toInt32 (n : Int) : Int := (n + 2 ^ 31) % 2 ^ 32 - 2 ^ 31

/-- One character step of the seed hash:
`hash = ((hash << 5) - hash) + charCode; hash = hash & hash`.  The shift is a
32-bit operation; the subtraction and addition are exact in doubles at these
magnitudes; the `& hash` then truncates back to 32 bits. -/
def hashStep (hash : Int) (c : Nat) : Int :=
  toInt32 (toInt32 (hash * 32) - hash + c)

/-- The 32-bit string hash computed by `CardService.seededRandom` (UTF-16
code units; all seeds considered here are in the BMP, where the code unit
equals the code point). -/
def hashString (s : String) : Int :=
  s.data.foldl (fun h c => hashStep h c.toNat) 0

/-- One step of the Lehmer generator inside the closure returned by
`seededRandom`: `hash = hash * 16807 % 2147483647`, with the JS `%`
(truncated remainder, sign of the dividend) modelled by `Int.tmod`. -/
def lcgNext (state : Int) : Int := Int.tmod (state * 16807) 2147483647

/-- Internal generator state after `n` draws from the stream seeded by
`seed` (state 0 is the state right after hashing, before any draw). -/
def rngState (seed : String) : Nat → Int
  | 0 => hashString seed
  | n + 1 => lcgNext (rngState seed n)

/-- Integer numerator of the `n`-th value returned by the generator:
the closure returns `(hash - 1) / 2147483646` after the `n+1`-st state
update. -/
def uNum (seed : String) (n : Nat) : Int := rngState seed (n + 1) - 1

/-- The `n`-th uniform value returned by the generator, as an exact
rational.  (JS divides in doubles, which preserves sign and the value up to
rounding; nothing below depends on more than that.) -/
def uVal (seed : String) (n : Nat) : ℚ := (uNum seed n : ℚ) / 2147483646

/-- `CardService.randomizeStats` in the seeded branch, parameterized by the
per-stat map `g u1 u2` (in the source, the Box–Muller transform followed by
scaling, rounding and clamping — a transcendental real computation).  The
six fields are built in declaration order, each consuming two consecutive
draws from the single stream, exactly as the six `generateStat()` calls do. -/
def randomizeStatsWith (g : ℚ → ℚ → Int) (seed : String) : PlayerStats :=
  { technical := g (uVal seed 0) (uVal seed 1)
    leadership := g (uVal seed 2) (uVal seed 3)
    creativity := g (uVal seed 4) (uVal seed 5)
    reliability := g (uVal seed 6) (uVal seed 7)
    collaboration := g (uVal seed 8) (uVal seed 9)
    adaptability := g (uVal seed 10) (uVal seed 11) }

/-- JS truthiness test on an optional string field: `!card.profilePhoto` is
true when the field is absent or the empty string. -/
def jsFalsyStr : Option String → Bool
  | none => true
  | some s => s = ""

/-- `name.toLowerCase().replace(/\s+/g, '_')` — lower-case, then collapse
each maximal whitespace run into a single underscore.  The Boolean argument
records whether the previous character was whitespace. -/
def collapseWs : List Char → Bool → List Char
  | [], _ => []
  | c :: cs, prevWs =>
    if isJsWhitespace c then
      (if prevWs then [] else ['_']) ++ collapseWs cs true
    else
      c :: collapseWs cs false

/-- The photo-library key derived from a player name in
`BatchService.matchPhotosToPlayers`. -/
def photoKey (name : String) : String :=
  String.mk (collapseWs (name.data.map Char.toLower) false)

/-- `BatchService.matchPhotosToPlayers`, with the two subjects (cards list
and photo library `Map`) passed explicitly.  The `Map` is modelled as an
association list with `Map.get` = first-match lookup.  The looked-up value
is attached only when truthy (`if (photo)` in the source): a missing key
and an empty-string payload both leave the card unchanged. -/
def matchPhotosToPlayers (cards : List PlayerData)
    (photos : List (String × String)) : List PlayerData :=
  cards.map (fun card =>
    if jsFalsyStr card.profilePhoto then
      match photos.lookup (photoKey card.name) with
      | some photo =>
        if photo = "" then card else { card with profilePhoto := some photo }
      | none => card
    else
      card)

/-- Accumulator pass of `splitChar` (current field held reversed). -/
def splitCharGo (sep : Char) : List Char → List Char → List String
  | [], current => [String.mk current.reverse]
  | c :: cs, current =>
    if c = sep then String.mk current.reverse :: splitCharGo sep cs []
    else splitCharGo sep cs (c :: current)

/-- JS `s.split(sep)` for a single-character separator (the only kind the
batch pipeline uses: newline for lines and comma for headers). -/
def splitChar (s : String) (sep : Char) : List String :=
  splitCharGo sep s.data []

/-- Status component of `BatchProgress`. -/
inductive BatchStatus where
  | idle
  | processing
  | completed
  | error
deriving DecidableEq

/-- One snapshot emitted through `batchProgressSubject`. -/
structure BatchProgress where
  current : Nat
  total : Nat
  status : BatchStatus
  message : String
deriving DecidableEq

/-- JSON values as far as the import pipeline inspects them: absent/null,
number, string or boolean.  (Integer-valued numbers only; the pipeline is
never fed non-integer numerics by the claims below.) -/
inductive JVal where
  | jnull
  | jnum (n : Int)
  | jstr (s : String)
  | jbool (b : Bool)
deriving DecidableEq

/-- JS truthiness of a `JVal` (0, "", false, null/undefined are falsy). -/
def JVal.truthy : JVal → Bool
  | .jnull => false
  | .jnum n => n != 0
  | .jstr s => s != ""
  | .jbool b => b

/-- JS `a || b` on inspected JSON values. -/
def jOr (a b : JVal) : JVal := if a.truthy then a else b

/-- The nested `stats` object a JSON item may carry. -/
structure JStats where
  technical : JVal := .jnull
  leadership : JVal := .jnull
  creativity : JVal := .jnull
  reliability : JVal := .jnull
  collaboration : JVal := .jnull
  adaptability : JVal := .jnull
deriving DecidableEq

/-- One JSON import item, with exactly the keys
`parsePlayerDataFromJSON` reads. -/
structure JItem where
  id : JVal := .jnull
  name : JVal := .jnull
  position : JVal := .jnull
  nationality : JVal := .jnull
  rating : JVal := .jnull
  theme : JVal := .jnull
  backgroundTheme : JVal := .jnull
  technical : JVal := .jnull
  leadership : JVal := .jnull
  creativity : JVal := .jnull
  reliability : JVal := .jnull
  collaboration : JVal := .jnull
  adaptability : JVal := .jnull
  stats : Option JStats := none
  profilePhoto : JVal := .jnull
  photo : JVal := .jnull
  customLogo : JVal := .jnull
  logo : JVal := .jnull
  createdAt : JVal := .jnull
deriving DecidableEq

/-- The `data` payload attached to a row-level error or warning: the parsed
CSV cells, a raw CSV line, a raw JSON item, or the parsed player. -/
inductive ErrData where
  | cells (vs : List String)
  | rawLine (s : String)
  | rawItem (it : JItem)
  | parsed (p : PlayerData)
deriving DecidableEq

/-- One entry of the error or warning list of a `BatchImportResult`. -/
structure RowIssue where
  row : Nat
  message : String
  data : ErrData
deriving DecidableEq

/-- `BatchImportResult` of `BatchService`. -/
structure BatchImportResult where
  success : List PlayerData
  errors : List RowIssue
  warnings : List RowIssue
deriving DecidableEq

/-- The empty accumulator each import call starts from. -/
def emptyBatchResult : BatchImportResult := ⟨[], [], []⟩

/-- Everything one import call produces: the sequence of progress snapshots
pushed through the subject, and either the returned result or the message of
the exception that aborted the call. -/
structure ImportOutcome where
  progress : List BatchProgress
  result : Except String BatchImportResult

/-- `join(', ')` used to collapse validator messages. -/
def joinMsgs (msgs : List String) : String := String.intercalate ", " msgs

/-- Return type of `BatchService.validatePlayerData`. -/
structure ValidationResult where
  isValid : Bool
  errors : List String
  warnings : List String
deriving DecidableEq

/-- `BatchService.validatePlayerData`: required-field errors and advisory
warnings, assembled in source order.  A falsy (empty) string field fails the
corresponding required check. -/
def validatePlayerData (playerData : PlayerData) : ValidationResult :=
  let errors :=
    (if playerData.name = "" then ["Name is required"] else []) ++
    (if playerData.position = "" then ["Position is required"] else []) ++
    (if playerData.nationality.length < 2 then
      ["Valid nationality code is required"] else [])
  let warnings :=
    (if 25 < playerData.name.length then
      ["Name is quite long and may not display well"] else []) ++
    (if playerData.rating < 50 then ["Rating seems unusually low"] else []) ++
    (if 95 < playerData.rating then ["Rating seems unusually high"] else [])
  { isValid := errors.isEmpty, errors := errors, warnings := warnings }

/-- Character-level splitter `BatchService.parseCSVLine`: toggle the
in-quotes flag on `"` and split on `,` only outside quotes; each field is
trimmed.  The accumulator holds the current field reversed. -/
def csvSplitGo : List Char → Bool → List Char → List String
  | [], _, current => [strTrim (String.mk current.reverse)]
  | c :: cs, inQuotes, current =>
    if c = '"' then
      csvSplitGo cs (!inQuotes) current
    else if c = ',' && !inQuotes then
      strTrim (String.mk current.reverse) :: csvSplitGo cs inQuotes []
    else
      csvSplitGo cs inQuotes (c :: current)

/-- `BatchService.parseCSVLine`. -/
def parseCSVLine (line : String) : List String := csvSplitGo line.data false []

/-- `getValue` inside `parsePlayerDataFromCSV`: cell under the first header
equal to `field`, trimmed; empty when the header is absent or the row is too
short (`values[index]?.trim() || ''`). -/
def getValue (headers values : List String) (field : String) : String :=
  match headers.findIdx? (· == field) with
  | some i =>
    match values[i]? with
    | some v => strTrim v
    | none => ""
  | none => ""

/-- `getNumericValue` inside `parsePlayerDataFromCSV`: `parseInt` the cell,
clamp to [1,99], or fall back to the default when unparsable. -/
def getNumericValue (headers values : List String) (field : String)
    (defaultValue : Int) : Int :=
  match parseIntJS (getValue headers values field) with
  | some n => clamp99 n
  | none => defaultValue

/-- `BatchService.parsePlayerDataFromCSV`.  The `Date.now()` inside the
generated id and the timestamps are the `now` parameter. -/
def parsePlayerDataFromCSV (headers values : List String) (rowIndex : Nat)
    (now : Nat) : PlayerData :=
  let stats : PlayerStats :=
    { technical := getNumericValue headers values "technical" 75
      leadership := getNumericValue headers values "leadership" 75
      creativity := getNumericValue headers values "creativity" 75
      reliability := getNumericValue headers values "reliability" 75
      collaboration := getNumericValue headers values "collaboration" 75
      adaptability := getNumericValue headers values "adaptability" 75 }
  { id := "batch_" ++ toString rowIndex ++ "_" ++ toString now
    name := sanitizeInput (getValue headers values "name") 30
    position := validatePosition (getValue headers values "position")
    nationality := String.mk ((toUpperStr (getValue headers values "nationality")).data.take 3)
    rating := getNumericValue headers values "rating" (calculateOverallRating stats)
    manualRating := getValue headers values "rating" != ""
    stats := stats
    backgroundTheme := validateTheme (getValue headers values "theme")
    createdAt := now
    updatedAt := now }

/-- One iteration of the CSV data-row loop (the body of
`for (let i = 1; ...)` in `importFromCSV` without the progress push).  The
`values.length === 0` skip is unreachable (`parseCSVLine` always yields at
least one field), and no statement in the body can throw, so the per-row
`catch` is dead code here; both are omitted. -/
def csvRowStep (headers : List String) (now : Nat) (i : Nat) (line : String)
    (acc : BatchImportResult) : BatchImportResult :=
  let values := parseCSVLine line
  let playerData := parsePlayerDataFromCSV headers values i now
  let v := validatePlayerData playerData
  if v.isValid then
    let acc' :=
      if v.warnings.isEmpty then acc
      else { acc with warnings :=
        acc.warnings ++ [⟨i, joinMsgs v.warnings, .parsed playerData⟩] }
    { acc' with success := acc'.success ++ [playerData] }
  else
    { acc with errors := acc.errors ++ [⟨i, joinMsgs v.errors, .cells values⟩] }

/-- The CSV data-row loop: one progress snapshot then one `csvRowStep` per
row, rows numbered from 1. -/
def csvLoop (headers : List String) (total now : Nat) :
    Nat → List String → BatchImportResult → List BatchProgress × BatchImportResult
  | _, [], acc => ([], acc)
  | i, line :: rest, acc =>
    let next := csvLoop headers total now (i + 1) rest (csvRowStep headers now i line acc)
    (⟨i, total, .processing, "Processing row " ++ toString i ++ "..."⟩ :: next.1,
     next.2)

/-- `text.split('\n').filter(line => line.trim())`. -/
def csvLines (text : String) : List String :=
  (splitChar text '\n').filter (fun line => !(strTrim line).isEmpty)

/-- The header fields `importFromCSV` requires. -/
def requiredFields : List String := ["name", "position", "nationality"]

/-- `BatchService.importFromCSV` on the file's text content: pipeline-level
failures (empty file, missing required headers) abort with an `error`
progress snapshot and a thrown message; otherwise every data row is
processed and a final `completed` snapshot counts the accepted records. -/
def importFromCSV (text : String) (now : Nat) : ImportOutcome :=
  let p0 : BatchProgress := ⟨0, 0, .processing, "Reading CSV file..."⟩
  match csvLines text with
  | [] => ⟨[p0, ⟨0, 0, .error, "Empty CSV file"⟩], .error "Empty CSV file"⟩
  | headerLine :: dataLines =>
    let headers := (splitChar headerLine ',').map (fun h => toLowerStr (strTrim h))
    let missingRequired := requiredFields.filter (fun f => !(headers.contains f))
    if missingRequired.isEmpty then
      let run := csvLoop headers dataLines.length now 1 dataLines emptyBatchResult
      ⟨p0 :: run.1 ++ [⟨run.2.success.length, run.2.success.length, .completed,
        "Imported " ++ toString run.2.success.length ++ " cards successfully"⟩],
       .ok run.2⟩
    else
      let msg := "Missing required columns: " ++ joinMsgs missingRequired
      ⟨[p0, ⟨0, 0, .error, msg⟩], .error msg⟩

/-- `BatchService.clampStat`: `parseInt` the value (numbers stringify to
themselves), clamp to [1,99], default 75 when `NaN`. -/
def clampStat (v : JVal) : Int :=
  match v with
  | .jnum n => clamp99 n
  | .jstr s =>
    match parseIntJS s with
    | some n => clamp99 n
    | none => 75
  | _ => 75

/-- Source of one stat in `parsePlayerDataFromJSON`:
`jsonItem.f || jsonItem.stats?.f || 75` (top-level key wins, then the nested
`stats` object, then the literal 75). -/
def jStatSrc (top : JVal) (nested : Option JVal) : JVal :=
  jOr top (jOr (nested.getD .jnull) (.jnum 75))

/-- `this.cardService.sanitizeInput(jsonItem.name || '', 30)`: a falsy name
becomes the empty string; a truthy non-string makes `input.trim()` throw,
which the per-item `catch` turns into a row-level error. -/
def sanitizeJName (v : JVal) : Except String String :=
  match jOr v (.jstr "") with
  | .jstr s => .ok (sanitizeInput s 30)
  | _ => .error "input.trim is not a function"

/-- `validatePosition(jsonItem.position)` from a JSON value:
`position?.toUpperCase()` leaves null/undefined as `undefined` (not
whitelisted, so `DEV`), works on strings, and throws on other types. -/
def validatePositionJ (v : JVal) : Except String String :=
  match v with
  | .jnull => .ok "DEV"
  | .jstr s => .ok (validatePosition s)
  | _ => .error "position.toUpperCase is not a function"

/-- `(jsonItem.nationality || '').toUpperCase().substring(0, 3)`: falsy
values become the empty string; truthy non-strings throw. -/
def nationalityJ (v : JVal) : Except String String :=
  if v.truthy then
    match v with
    | .jstr s => .ok (String.mk ((toUpperStr s).data.take 3))
    | _ => .error "nationality.toUpperCase is not a function"
  else
    .ok ""

/-- `validateTheme(jsonItem.theme || jsonItem.backgroundTheme)`:
`includes` is false on any non-string, giving the `gold-classic` fallback. -/
def themeJ (theme backgroundTheme : JVal) : String :=
  match jOr theme backgroundTheme with
  | .jstr s => validateTheme s
  | _ => "gold-classic"

/-- `jsonItem.profilePhoto || jsonItem.photo` (same for logo): the first
truthy value, kept only when it is a string payload. -/
def photoJ (a b : JVal) : Option String :=
  match jOr a b with
  | .jstr s => if s = "" then none else some s
  | _ => none

/-- `jsonItem.id || batch_json_<index>_<Date.now()>`. -/
def idJ (v : JVal) (index now : Nat) : String :=
  match v with
  | .jstr s => if s = "" then "batch_json_" ++ toString index ++ "_" ++ toString now else s
  | .jnum n => if n = 0 then "batch_json_" ++ toString index ++ "_" ++ toString now else toString n
  | _ => "batch_json_" ++ toString index ++ "_" ++ toString now

/-- `new Date(jsonItem.createdAt || Date.now())` restricted to the numeric
timestamps the pipeline is exercised with (string dates are out of scope of
the claims below). -/
def createdAtJ (v : JVal) (now : Nat) : Nat :=
  match v with
  | .jnum n => if n = 0 then now else n.toNat
  | _ => now

/-- `BatchService.parsePlayerDataFromJSON`.  The `Except` return models the
`throw` sites (the method calls on truthy non-string fields), evaluated in
the object-literal order of the source: name, position, nationality. -/
def parsePlayerDataFromJSON (item : JItem) (index : Nat) (now : Nat) :
    Except String PlayerData :=
  let stats : PlayerStats :=
    { technical := clampStat (jStatSrc item.technical (item.stats.map (·.technical)))
      leadership := clampStat (jStatSrc item.leadership (item.stats.map (·.leadership)))
      creativity := clampStat (jStatSrc item.creativity (item.stats.map (·.creativity)))
      reliability := clampStat (jStatSrc item.reliability (item.stats.map (·.reliability)))
      collaboration := clampStat (jStatSrc item.collaboration (item.stats.map (·.collaboration)))
      adaptability := clampStat (jStatSrc item.adaptability (item.stats.map (·.adaptability))) }
  do
    let nm ← sanitizeJName item.name
    let pos ← validatePositionJ item.position
    let nat ← nationalityJ item.nationality
    .ok
      { id := idJ item.id index now
        name := nm
        position := pos
        nationality := nat
        rating := if item.rating.truthy then clampStat item.rating
                  else calculateOverallRating stats
        manualRating := item.rating.truthy
        stats := stats
        backgroundTheme := themeJ item.theme item.backgroundTheme
        profilePhoto := photoJ item.profilePhoto item.photo
        customLogo := photoJ item.customLogo item.logo
        createdAt := createdAtJ item.createdAt now
        updatedAt := now }

/-- The top-level shape of a parsed JSON import payload: a bare array, an
object with a `cards` array, an object with a `players` array, any other
parsed shape, or text `JSON.parse` rejects. -/
inductive JsonInput where
  | arr (items : List JItem)
  | cardsObj (items : List JItem)
  | playersObj (items : List JItem)
  | otherShape
  | unparseable

/-- The item list of an accepted JSON shape. -/
def jsonItems : JsonInput → Option (List JItem)
  | .arr items | .cardsObj items | .playersObj items => some items
  | _ => none

/-- One iteration of the JSON item loop: a parse exception or a failed
validation becomes an error entry under row `i + 1` carrying the raw item;
an accepted item lands in `success` (and in `warnings` when flagged). -/
def jsonRowStep (now : Nat) (i : Nat) (item : JItem)
    (acc : BatchImportResult) : BatchImportResult :=
  match parsePlayerDataFromJSON item i now with
  | .error msg =>
    { acc with errors := acc.errors ++ [⟨i + 1, msg, .rawItem item⟩] }
  | .ok playerData =>
    let v := validatePlayerData playerData
    if v.isValid then
      let acc' :=
        if v.warnings.isEmpty then acc
        else { acc with warnings :=
          acc.warnings ++ [⟨i + 1, joinMsgs v.warnings, .parsed playerData⟩] }
      { acc' with success := acc'.success ++ [playerData] }
    else
      { acc with errors := acc.errors ++ [⟨i + 1, joinMsgs v.errors, .rawItem item⟩] }

/-- The JSON item loop, items numbered from 0 (progress) with error rows
reported 1-based. -/
def jsonLoop (total now : Nat) :
    Nat → List JItem → BatchImportResult → List BatchProgress × BatchImportResult
  | _, [], acc => ([], acc)
  | i, item :: rest, acc =>
    let next := jsonLoop total now (i + 1) rest (jsonRowStep now i item acc)
    (⟨i, total, .processing, "Processing item " ++ toString (i + 1) ++ "..."⟩ :: next.1,
     next.2)

/-- `BatchService.importFromJSON` on the parsed payload: an unrecognized
shape (or unparseable text) aborts with an `error` snapshot and a thrown
message; otherwise every item is processed and a final `completed` snapshot
counts the accepted records.  (The exact `JSON.parse` exception text is
engine-dependent; a representative message stands in for it.) -/
def importFromJSON (input : JsonInput) (now : Nat) : ImportOutcome :=
  let p0 : BatchProgress := ⟨0, 0, .processing, "Reading JSON file..."⟩
  match jsonItems input with
  | some items =>
    let run := jsonLoop items.length now 0 items emptyBatchResult
    ⟨p0 :: run.1 ++ [⟨run.2.success.length, run.2.success.length, .completed,
      "Imported " ++ toString run.2.success.length ++ " cards successfully"⟩],
     .ok run.2⟩
  | none =>
    let msg :=
      match input with
      | .unparseable => "Unexpected token in JSON"
      | _ => "Invalid JSON structure. Expected array or object with \"cards\"/\"players\" property"
    ⟨[p0, ⟨0, 0, .error, msg⟩], .error msg⟩

/-- The candidate record a CSV data row yields. -/
def csvRowPlayer (headers : List String) (now i : Nat) (line : String) : PlayerData :=
  parsePlayerDataFromCSV headers (parseCSVLine line) i now

/-- Whether a CSV data row passes validation. -/
def csvRowOk (headers : List String) (now i : Nat) (line : String) : Bool :=
  (validatePlayerData (csvRowPlayer headers now i line)).isValid

/-- Pair each element with its index, counting from `i`. -/
def enumFrom (i : Nat) : List α → List (Nat × α)
  | [] => []
  | a :: as => (i, a) :: enumFrom (i + 1) as

/-- Accepted records of a batch of indexed CSV rows, each row judged
independently of the others. -/
def csvExpSuccess (headers : List String) (now : Nat)
    (rows : List (Nat × String)) : List PlayerData :=
  rows.filterMap (fun p =>
    if csvRowOk headers now p.1 p.2 then some (csvRowPlayer headers now p.1 p.2)
    else none)

/-- Row-level error entries of a batch of indexed CSV rows: one entry per
failing row, carrying its index and its parsed cells. -/
def csvExpErrors (headers : List String) (now : Nat)
    (rows : List (Nat × String)) : List RowIssue :=
  rows.filterMap (fun p =>
    if csvRowOk headers now p.1 p.2 then none
    else some ⟨p.1,
      joinMsgs (validatePlayerData (csvRowPlayer headers now p.1 p.2)).errors,
      .cells (parseCSVLine p.2)⟩)

/-- Warning entries of a batch of indexed CSV rows. -/
def csvExpWarnings (headers : List String) (now : Nat)
    (rows : List (Nat × String)) : List RowIssue :=
  rows.filterMap (fun p =>
    if csvRowOk headers now p.1 p.2 then
      if (validatePlayerData (csvRowPlayer headers now p.1 p.2)).warnings.isEmpty then none
      else some ⟨p.1,
        joinMsgs (validatePlayerData (csvRowPlayer headers now p.1 p.2)).warnings,
        .parsed (csvRowPlayer headers now p.1 p.2)⟩
    else none)

/-- Accepted records of a batch of indexed JSON items, each item judged
independently. -/
def jsonExpSuccess (now : Nat) (items : List (Nat × JItem)) : List PlayerData :=
  items.filterMap (fun p =>
    match parsePlayerDataFromJSON p.2 p.1 now with
    | .ok pd => if (validatePlayerData pd).isValid then some pd else none
    | .error _ => none)

/-- Row-level error entries of a batch of indexed JSON items: a parse
exception or a failed validation yields one entry under 1-based row
`index + 1`, carrying the raw item. -/
def jsonExpErrors (now : Nat) (items : List (Nat × JItem)) : List RowIssue :=
  items.filterMap (fun p =>
    match parsePlayerDataFromJSON p.2 p.1 now with
    | .ok pd =>
      if (validatePlayerData pd).isValid then none
      else some ⟨p.1 + 1, joinMsgs (validatePlayerData pd).errors, .rawItem p.2⟩
    | .error msg => some ⟨p.1 + 1, msg, .rawItem p.2⟩)

/-- Warning entries of a batch of indexed JSON items. -/
def jsonExpWarnings (now : Nat) (items : List (Nat × JItem)) : List RowIssue :=
  items.filterMap (fun p =>
    match parsePlayerDataFromJSON p.2 p.1 now with
    | .ok pd =>
      if (validatePlayerData pd).isValid then
        if (validatePlayerData pd).warnings.isEmpty then none
        else some ⟨p.1 + 1, joinMsgs (validatePlayerData pd).warnings, .parsed pd⟩
      else none
    | .error _ => none)

/-- A minimal JSON item with no rating field, used to instantiate the
amended claim C1. -/
def c1Item : JItem := { name := .jstr "Bob", nationality := .jstr "FR" }

/-- The record `parsePlayerDataFromJSON` produces from `c1Item` at index 0,
clock 0. -/
def c1Player : PlayerData :=
  { id := "batch_json_0_0"
    name := "Bob"
    position := "DEV"
    nationality := "FR"
    rating := 75
    manualRating := false
    stats := ⟨75, 75, 75, 75, 75, 75⟩
    backgroundTheme := "gold-classic"
    createdAt := 0
    updatedAt := 0 }

/-- A CSV payload with one valid row and one row with an empty name, used
to instantiate claim C2. -/
def c2CsvText : String := "name,position,nationality\nBob,DEV,FR\n,QA,US"

/-- The lower-cased header list of `c2CsvText`. -/
def c2Headers : List String :=
  (splitChar "name,position,nationality" ',').map (fun h => toLowerStr (strTrim h))

/-- Three JSON items: one valid, one whose non-string name makes parsing
throw, one failing validation. -/
def c2Items : List JItem :=
  [{ name := .jstr "Ann", position := .jstr "QA", nationality := .jstr "US" },
   { name := .jnum 7 },
   { name := .jstr "", position := .jstr "DEV", nationality := .jstr "FR" }]

/-- The floor-division form used by `calculateOverallRating` agrees with
`Math.round` (round half toward positive infinity) of the exact rational
mean, for any integer `T`. -/
theorem fdiv_add_three_eq_round (T : Int) :
    Int.fdiv (T + 3) 6 = round ((T : ℚ) / 6) := by
  rw [round_eq]
  have h : (T : ℚ) / 6 + 1 / 2 = ((T + 3 : ℤ) : ℚ) / ((6 : ℕ) : ℚ) := by
    push_cast
    ring
  rw [h, Rat.floor_intCast_div_natCast, Int.fdiv_eq_ediv _ (by norm_num)]
  norm_num

/-- `calculateOverallRating` is `round` of the rational mean of the six
stats. -/
theorem calculateOverallRating_eq_round (s : PlayerStats) :
    calculateOverallRating s = round (((statsValues s).sum : ℚ) / 6) :=
  fdiv_add_three_eq_round _

/-- The result half of `csvLoop` is the accumulator extended with the
per-row verdicts of the remaining rows, each row judged independently of
every other. -/
theorem csvLoop_characterization (headers : List String) (total now : Nat) :
    ∀ (rows : List String) (i : Nat) (acc : BatchImportResult),
      (csvLoop headers total now i rows acc).2 =
        ⟨acc.success ++ csvExpSuccess headers now (enumFrom i rows),
         acc.errors ++ csvExpErrors headers now (enumFrom i rows),
         acc.warnings ++ csvExpWarnings headers now (enumFrom i rows)⟩
  | [], i, acc => by
    simp [csvLoop, enumFrom, csvExpSuccess, csvExpErrors, csvExpWarnings]
  | line :: rest, i, acc => by
    rw [show (csvLoop headers total now i (line :: rest) acc).2 =
        (csvLoop headers total now (i + 1) rest (csvRowStep headers now i line acc)).2
      from rfl]
    rw [csvLoop_characterization headers total now rest (i + 1)
        (csvRowStep headers now i line acc)]
    simp only [enumFrom, csvExpSuccess, csvExpErrors, csvExpWarnings,
      List.filterMap_cons]
    unfold csvRowStep
    by_cases hv : (validatePlayerData (parsePlayerDataFromCSV headers (parseCSVLine line) i now)).isValid
    · by_cases hw : (validatePlayerData (parsePlayerDataFromCSV headers (parseCSVLine line) i now)).warnings.isEmpty
      · simp [csvRowOk, csvRowPlayer, hv, hw]
      · simp [csvRowOk, csvRowPlayer, hv, hw]
    · simp [csvRowOk, csvRowPlayer, hv]

/-- The result half of `jsonLoop` is the accumulator extended with the
per-item verdicts of the remaining items, each item judged independently of
every other. -/
theorem jsonLoop_characterization (total now : Nat) :
    ∀ (items : List JItem) (i : Nat) (acc : BatchImportResult),
      (jsonLoop total now i items acc).2 =
        ⟨acc.success ++ jsonExpSuccess now (enumFrom i items),
         acc.errors ++ jsonExpErrors now (enumFrom i items),
         acc.warnings ++ jsonExpWarnings now (enumFrom i items)⟩
  | [], i, acc => by
    simp [jsonLoop, enumFrom, jsonExpSuccess, jsonExpErrors, jsonExpWarnings]
  | item :: rest, i, acc => by
    rw [show (jsonLoop total now i (item :: rest) acc).2 =
        (jsonLoop total now (i + 1) rest (jsonRowStep now i item acc)).2
      from rfl]
    rw [jsonLoop_characterization total now rest (i + 1) (jsonRowStep now i item acc)]
    simp only [enumFrom, jsonExpSuccess, jsonExpErrors, jsonExpWarnings,
      List.filterMap_cons]
    unfold jsonRowStep
    cases hp : parsePlayerDataFromJSON item i now with
    | error msg => simp [hp]
    | ok pd =>
      by_cases hv : (validatePlayerData pd).isValid
      · by_cases hw : (validatePlayerData pd).warnings.isEmpty
        · simp [hp, hv, hw]
        · simp [hp, hv, hw]
      · simp [hp, hv]

/-- Length of a packed string is the length of its character list. -/
theorem strMk_length (xs : List Char) : (String.mk xs).length = xs.length := rfl

/-- Reduction of the `Except` monad bind on a success value. -/
theorem except_bind_ok {α β : Type} (a : α) (f : α → Except String β) :
    ((Except.ok a : Except String α) >>= f) = f a := rfl

/-- Reduction of the `Except` monad bind on an exception. -/
theorem except_bind_error {α β : Type} (e : String) (f : α → Except String β) :
    ((Except.error e : Except String α) >>= f) = Except.error e := rfl

/-- Claim C3: for every skill set of six integers each in [1,99], the rating
aggregation function `calculateOverallRating` returns the rounded arithmetic
mean of the six values, and that result itself lies in [1,99]. -/
theorem claim3_rating_is_rounded_mean_in_range (s : PlayerStats)
    (h : ∀ v ∈ statsValues s, 1 ≤ v ∧ v ≤ 99) :
    calculateOverallRating s = round (((statsValues s).sum : ℚ) / 6) ∧
    1 ≤ calculateOverallRating s ∧ calculateOverallRating s ≤ 99 := by
  refine ⟨calculateOverallRating_eq_round s, ?_⟩
  obtain ⟨h1, h1'⟩ := h s.technical (by simp [statsValues])
  obtain ⟨h2, h2'⟩ := h s.leadership (by simp [statsValues])
  obtain ⟨h3, h3'⟩ := h s.creativity (by simp [statsValues])
  obtain ⟨h4, h4'⟩ := h s.reliability (by simp [statsValues])
  obtain ⟨h5, h5'⟩ := h s.collaboration (by simp [statsValues])
  obtain ⟨h6, h6'⟩ := h s.adaptability (by simp [statsValues])
  unfold calculateOverallRating
  rw [Int.fdiv_eq_ediv _ (by norm_num)]
  simp only [statsValues, List.sum_cons, List.sum_nil]
  omega

/-- Closed instance of claim C3 at the default player's stat vector. -/
theorem claim3_witness :
    (∀ v ∈ statsValues ⟨88, 82, 90, 85, 83, 87⟩, 1 ≤ v ∧ v ≤ 99) ∧
    (calculateOverallRating ⟨88, 82, 90, 85, 83, 87⟩ =
        round (((statsValues ⟨88, 82, 90, 85, 83, 87⟩).sum : ℚ) / 6) ∧
      1 ≤ calculateOverallRating ⟨88, 82, 90, 85, 83, 87⟩ ∧
      calculateOverallRating ⟨88, 82, 90, 85, 83, 87⟩ ≤ 99) :=
  ⟨by decide, claim3_rating_is_rounded_mean_in_range _ (by decide)⟩

/-- Claim C6 fails on the code: the whitelist of `validateTheme` omits
`totw`, so the `totw` theme is not returned unchanged but silently replaced
by the fallback. -/
theorem claim6_counterexample :
    validateTheme "totw" ≠ "totw" ∧ validateTheme "totw" = "gold-classic" := by
  decide

/-- Claim C6 (amended): theme normalization returns the input unchanged
exactly on the four whitelisted themes gold-classic, dark-mode-it,
silver-modern, bronze-vintage; every other input — including `totw` — is
replaced by gold-classic. -/
theorem claim6_theme_whitelist (t : String) :
    (t ∈ validThemes → validateTheme t = t) ∧
    (t ∉ validThemes → validateTheme t = "gold-classic") := by
  constructor <;> intro h <;> simp [validateTheme, List.elem_eq_mem, h]

/-- Closed instance of claim C6 (amended) at a whitelisted theme and at
`totw`. -/
theorem claim6_witness :
    ("silver-modern" ∈ validThemes ∧ validateTheme "silver-modern" = "silver-modern") ∧
    ("totw" ∉ validThemes ∧ validateTheme "totw" = "gold-classic") :=
  ⟨⟨by decide, (claim6_theme_whitelist "silver-modern").1 (by decide)⟩,
   ⟨by decide, (claim6_theme_whitelist "totw").2 (by decide)⟩⟩

/-- Claim C7 fails on the code for tiny `maxLength`: truncation always
appends a three-character ellipsis, so a long input with `maxLength = 2`
yields `"..."`, which is longer than 2. -/
theorem claim7_counterexample :
    sanitizeInput "aaaa" 2 = "..." ∧ ¬ (sanitizeInput "aaaa" 2).length ≤ 2 := by
  decide

/-- Claim C7 (amended): for `maxLength ≥ 3`, `sanitizeInput` returns a
string of length at most `maxLength`; in particular sanitizing sixty `'a'`
characters with `maxLength = 10` yields a 10-character string ending in
`...`.  (For `maxLength < 3` a long input yields the bare 3-character
ellipsis, which exceeds the bound.) -/
theorem claim7_sanitize_length (input : String) (maxLength : Nat)
    (h : 3 ≤ maxLength) :
    (sanitizeInput input maxLength).length ≤ maxLength ∧
    (sanitizeInput (String.mk (List.replicate 60 'a')) 10).length = 10 ∧
    (sanitizeInput (String.mk (List.replicate 60 'a')) 10).data.drop 7 =
      ['.', '.', '.'] := by
  refine ⟨?_, by decide, by decide⟩
  have hrw : sanitizeInput input maxLength =
      (if maxLength <
          (blockedWords.foldl (fun acc w => maskWord w.data acc) (trimChars input.data)).length
       then String.mk
          ((blockedWords.foldl (fun acc w => maskWord w.data acc) (trimChars input.data)).take
            (maxLength - 3) ++ ['.', '.', '.'])
       else String.mk
          (blockedWords.foldl (fun acc w => maskWord w.data acc) (trimChars input.data))) :=
    rfl
  rw [hrw]
  set m := blockedWords.foldl (fun acc w => maskWord w.data acc) (trimChars input.data) with hm
  by_cases hc : maxLength < m.length
  · rw [if_pos hc, strMk_length, List.length_append, List.length_take]
    simp only [List.length_cons, List.length_nil]
    omega
  · rw [if_neg hc, strMk_length]
    omega

/-- Closed instance of claim C7 (amended) at `maxLength = 3`. -/
theorem claim7_witness :
    3 ≤ 3 ∧ (sanitizeInput "hello world" 3).length ≤ 3 :=
  ⟨by decide, (claim7_sanitize_length "hello world" 3 (by decide)).1⟩

/-- Claim C5 fails on the code (the claim matches the spec's stated intent,
so this is a code bug): `generateStat` never guards `u1` against
non-positive values.  For the empty seed the 32-bit hash is 0, the Lehmer
state is stuck at 0, and every draw is `(0 - 1) / 2147483646 < 0`, so
`Math.log(u1)` is `NaN` and all six stats are `NaN` instead of integers in
[60,98]. -/
theorem claim5_u1_unguarded :
    hashString "" = 0 ∧ (∀ n, uNum "" n = -1) ∧ (∀ n, uVal "" n < 0) := by
  have hs : ∀ n, rngState "" n = 0 := by
    intro n
    induction n with
    | zero => decide
    | succ n ih => rw [rngState, ih]; decide
  have hn : ∀ n, uNum "" n = -1 := by
    intro n
    unfold uNum
    rw [hs (n + 1)]
    decide
  refine ⟨by decide, hn, fun n => ?_⟩
  unfold uVal
  rw [hn n]
  norm_num

/-- Claim C4: the value stream (and hence the six-stat vector drawn in field
order technical..adaptability) depends on the seed only through its 32-bit
hash, so two streams derived from the same seed — or any two seeds with
equal hashes — produce identical sequences and identical stat vectors, for
every stat map `g` applied to consecutive draw pairs. -/
theorem claim4_rng_deterministic (g : ℚ → ℚ → Int) (s1 s2 : String)
    (h : hashString s1 = hashString s2) :
    (∀ n, uVal s1 n = uVal s2 n) ∧
    randomizeStatsWith g s1 = randomizeStatsWith g s2 := by
  have hst : ∀ n, rngState s1 n = rngState s2 n := by
    intro n
    induction n with
    | zero => exact h
    | succ n ih => rw [rngState, rngState, ih]
  have hu : ∀ n, uVal s1 n = uVal s2 n := by
    intro n
    unfold uVal uNum
    rw [hst (n + 1)]
  refine ⟨hu, ?_⟩
  unfold randomizeStatsWith
  rw [hu 0, hu 1, hu 2, hu 3, hu 4, hu 5, hu 6, hu 7, hu 8, hu 9, hu 10, hu 11]

/-- Closed instance of claim C4: the same seed twice gives the same stat
vector. -/
theorem claim4_witness :
    hashString "Larry Mota42" = hashString "Larry Mota42" ∧
    randomizeStatsWith (fun u1 u2 => round (u1 + u2)) "Larry Mota42" =
      randomizeStatsWith (fun u1 u2 => round (u1 + u2)) "Larry Mota42" :=
  ⟨rfl, (claim4_rng_deterministic (fun u1 u2 => round (u1 + u2))
    "Larry Mota42" "Larry Mota42" rfl).2⟩

/-- Claim C1 fails on the code: an `updatePlayer` call whose partial carries
no `stats` never re-establishes the invariant.  The default player already
has `rating = 85` with `manualRating = false` while its stats average to 86,
and a theme-only update (the app's template-selection call) propagates that
record unchanged. -/
theorem claim1_counterexample :
    (updatePlayer (createDefaultPlayer "card_1" 0)
        { backgroundTheme := some "dark-mode-it" } 1).manualRating = false ∧
    (updatePlayer (createDefaultPlayer "card_1" 0)
        { backgroundTheme := some "dark-mode-it" } 1).rating ≠
      calculateOverallRating
        (updatePlayer (createDefaultPlayer "card_1" 0)
          { backgroundTheme := some "dark-mode-it" } 1).stats := by
  decide

/-- Claim C1 (amended): `updatePlayer` recomputes the rating from the new
stats exactly when the partial carries a `stats` object and its own
`manualRating` is falsy; and the CSV and JSON import parsers do establish
the invariant on every record they produce whose `manualRating` is false.
Calls to `updatePlayer` whose partial has no `stats` leave the rating
untouched, so the global invariant does not hold for them. -/
theorem claim1_rating_invariant_amended :
    (∀ (current : PlayerData) (p : PlayerPartial) (now : Nat) (st : PlayerStats),
        p.stats = some st → p.manualRating.getD false = false →
        (updatePlayer current p now).stats = st ∧
        (updatePlayer current p now).rating = calculateOverallRating st) ∧
    (∀ (headers values : List String) (i now : Nat),
        (parsePlayerDataFromCSV headers values i now).manualRating = false →
        (parsePlayerDataFromCSV headers values i now).rating =
          calculateOverallRating (parsePlayerDataFromCSV headers values i now).stats) ∧
    (∀ (item : JItem) (i now : Nat) (pd : PlayerData),
        parsePlayerDataFromJSON item i now = .ok pd →
        pd.manualRating = false →
        pd.rating = calculateOverallRating pd.stats) := by
  refine ⟨?_, ?_, ?_⟩
  · intro current p now st h1 h2
    simp [updatePlayer, h1, h2]
  · intro headers values i now hman
    simp only [parsePlayerDataFromCSV] at hman ⊢
    have hempty : getValue headers values "rating" = "" := by
      simpa using hman
    have hnone : parseIntJS "" = none := rfl
    simp [getNumericValue, hempty, hnone]
  · intro item i now pd hok hman
    cases h1 : sanitizeJName item.name with
    | error e => simp [parsePlayerDataFromJSON, h1, except_bind_error] at hok
    | ok nm =>
      cases h2 : validatePositionJ item.position with
      | error e =>
        simp [parsePlayerDataFromJSON, h1, h2, except_bind_ok, except_bind_error] at hok
      | ok pos =>
        cases h3 : nationalityJ item.nationality with
        | error e =>
          simp [parsePlayerDataFromJSON, h1, h2, h3, except_bind_ok, except_bind_error] at hok
        | ok nat =>
          simp only [parsePlayerDataFromJSON, h1, h2, h3, except_bind_ok,
            Except.ok.injEq] at hok
          subst hok
          dsimp only at hman ⊢
          simp [hman]

/-- Closed instance of claim C1 (amended) covering all three parts. -/
theorem claim1_witness :
    ((updatePlayer (createDefaultPlayer "c" 0)
        { stats := some ⟨70, 72, 74, 76, 78, 80⟩ } 5).stats = ⟨70, 72, 74, 76, 78, 80⟩ ∧
      (updatePlayer (createDefaultPlayer "c" 0)
        { stats := some ⟨70, 72, 74, 76, 78, 80⟩ } 5).rating =
        calculateOverallRating ⟨70, 72, 74, 76, 78, 80⟩) ∧
    (parsePlayerDataFromCSV ["name", "position", "nationality"]
        ["Bob", "DEV", "FR"] 1 0).rating =
      calculateOverallRating
        (parsePlayerDataFromCSV ["name", "position", "nationality"]
          ["Bob", "DEV", "FR"] 1 0).stats ∧
    c1Player.rating = calculateOverallRating c1Player.stats :=
  ⟨claim1_rating_invariant_amended.1 (createDefaultPlayer "c" 0) _ 5 _ rfl rfl,
   claim1_rating_invariant_amended.2.1 _ _ 1 0 (by decide),
   claim1_rating_invariant_amended.2.2 c1Item 0 0 c1Player rfl (by decide)⟩

/-- Claim C10: a JSON item whose rating field is present but falsy (the
number 0, the empty string, `false`, `null`) is treated exactly as if no
rating were supplied: parsing is unchanged by replacing the field with
`null`, and an accepted record gets `manualRating = false` with the
aggregate rating of its skills rather than a manual rating of 0. -/
theorem claim10_falsy_rating_ignored (item : JItem) (i now : Nat) :
    (item.rating.truthy = false →
      parsePlayerDataFromJSON item i now =
        parsePlayerDataFromJSON { item with rating := .jnull } i now) ∧
    (∀ pd, item.rating.truthy = false →
      parsePlayerDataFromJSON item i now = .ok pd →
      pd.manualRating = false ∧ pd.rating = calculateOverallRating pd.stats) := by
  constructor
  · intro h
    simp [parsePlayerDataFromJSON, h, show JVal.jnull.truthy = false from rfl]
  · intro pd h hok
    cases h1 : sanitizeJName item.name with
    | error e => simp [parsePlayerDataFromJSON, h1, except_bind_error] at hok
    | ok nm =>
      cases h2 : validatePositionJ item.position with
      | error e =>
        simp [parsePlayerDataFromJSON, h1, h2, except_bind_ok, except_bind_error] at hok
      | ok pos =>
        cases h3 : nationalityJ item.nationality with
        | error e =>
          simp [parsePlayerDataFromJSON, h1, h2, h3, except_bind_ok, except_bind_error] at hok
        | ok nat =>
          simp only [parsePlayerDataFromJSON, h1, h2, h3, except_bind_ok,
            Except.ok.injEq] at hok
          subst hok
          dsimp only
          simp [h]

/-- Closed instance of claim C10 at an item whose rating field is the
number 0. -/
theorem claim10_witness :
    (JVal.jnum 0).truthy = false ∧
    (parsePlayerDataFromJSON
        { name := .jstr "Bob", nationality := .jstr "FR", rating := .jnum 0 } 0 0 =
      parsePlayerDataFromJSON
        { name := .jstr "Bob", nationality := .jstr "FR", rating := .jnull } 0 0) :=
  ⟨by decide,
   (claim10_falsy_rating_ignored
      { name := .jstr "Bob", nationality := .jstr "FR", rating := .jnum 0 } 0 0).1
     (by decide)⟩

/-- Claim C9 as frozen fails on the code: the source attaches the looked-up
value only when it is truthy (`if (photo)`), so a record lacking a photo
whose key IS present in the library — with an empty-string payload — still
passes through unchanged, no image attached. -/
theorem claim9_counterexample :
    matchPhotosToPlayers [{ createDefaultPlayer "a" 0 with name := "John Smith" }]
        [("john_smith", "")] =
      [{ createDefaultPlayer "a" 0 with name := "John Smith" }] ∧
    List.lookup (photoKey "John Smith") [("john_smith", "")] = some "" ∧
    ({ createDefaultPlayer "a" 0 with name := "John Smith" } : PlayerData).profilePhoto =
      none := by
  decide

/-- Claim C9 (amended): `matchPhotosToPlayers` preserves the count and order
of the records; each record that lacks a photo (absent or empty) and whose
normalized name key maps to a non-empty (truthy) payload in the library gets
exactly that image attached, and only in its `profilePhoto` field; every
record that already has a photo, whose key has no match, or whose key maps
to an empty payload, passes through unchanged. -/
theorem claim9_photo_match_frame (cards : List PlayerData)
    (photos : List (String × String)) :
    (matchPhotosToPlayers cards photos).length = cards.length ∧
    ∀ (i : Nat) (c : PlayerData), cards[i]? = some c →
      ∃ c', (matchPhotosToPlayers cards photos)[i]? = some c' ∧
        c' = { c with profilePhoto := c'.profilePhoto } ∧
        (jsFalsyStr c.profilePhoto = false → c' = c) ∧
        (jsFalsyStr c.profilePhoto = true →
          (photos.lookup (photoKey c.name) = none → c' = c) ∧
          (photos.lookup (photoKey c.name) = some "" → c' = c) ∧
          (∀ p, photos.lookup (photoKey c.name) = some p → p ≠ "" →
            c'.profilePhoto = some p)) := by
  refine ⟨by simp [matchPhotosToPlayers], ?_⟩
  intro i c hc
  have hmap : (matchPhotosToPlayers cards photos)[i]? =
      some (if jsFalsyStr c.profilePhoto then
          match photos.lookup (photoKey c.name) with
          | some photo =>
            if photo = "" then c else { c with profilePhoto := some photo }
          | none => c
        else c) := by
    simp [matchPhotosToPlayers, List.getElem?_map, hc]
  by_cases hf : jsFalsyStr c.profilePhoto = true
  · cases hl : photos.lookup (photoKey c.name) with
    | none =>
      refine ⟨c, ?_, rfl, fun _ => rfl,
        fun _ => ⟨fun _ => rfl, fun _ => rfl, fun p hp _ => ?_⟩⟩
      · rw [hmap, if_pos hf, hl]
      · cases hp
    | some p =>
      by_cases hp : p = ""
      · subst hp
        refine ⟨c, ?_, rfl, fun _ => rfl,
          fun _ => ⟨fun h0 => ?_, fun _ => rfl, fun q hq hq0 => ?_⟩⟩
        · rw [hmap, if_pos hf, hl]
          simp
        · cases h0
        · injection hq with h
          exact absurd h.symm hq0
      · refine ⟨{ c with profilePhoto := some p }, ?_, rfl, fun hff => ?_,
          fun _ => ⟨fun hlnone => ?_, fun h0 => ?_, fun q hq _ => ?_⟩⟩
        · rw [hmap, if_pos hf, hl]
          simp [hp]
        · rw [hff] at hf
          cases hf
        · cases hlnone
        · injection h0 with h
          exact absurd h hp
        · injection hq with h
          exact congrArg some h
  · refine ⟨c, ?_, rfl, fun _ => rfl, fun hft => absurd hft hf⟩
    rw [hmap, if_neg hf]

/-- Closed instance of claim C9 (amended): the spec's John Smith example,
next to a record that already has a photo. -/
theorem claim9_witness :
    (matchPhotosToPlayers
        [{ createDefaultPlayer "a" 0 with name := "John Smith" },
         { createDefaultPlayer "b" 0 with name := "Jane", profilePhoto := some "OWN" }]
        [("john_smith", "IMG")]).length = 2 ∧
    (∃ c', (matchPhotosToPlayers
        [{ createDefaultPlayer "a" 0 with name := "John Smith" },
         { createDefaultPlayer "b" 0 with name := "Jane", profilePhoto := some "OWN" }]
        [("john_smith", "IMG")])[0]? = some c' ∧
      c' = { ({ createDefaultPlayer "a" 0 with name := "John Smith" } : PlayerData) with
              profilePhoto := c'.profilePhoto } ∧
      (jsFalsyStr ({ createDefaultPlayer "a" 0 with name := "John Smith" } : PlayerData).profilePhoto = false →
        c' = { createDefaultPlayer "a" 0 with name := "John Smith" }) ∧
      (jsFalsyStr ({ createDefaultPlayer "a" 0 with name := "John Smith" } : PlayerData).profilePhoto = true →
        ([("john_smith", "IMG")].lookup (photoKey "John Smith") = none →
          c' = { createDefaultPlayer "a" 0 with name := "John Smith" }) ∧
        ([("john_smith", "IMG")].lookup (photoKey "John Smith") = some "" →
          c' = { createDefaultPlayer "a" 0 with name := "John Smith" }) ∧
        (∀ p, [("john_smith", "IMG")].lookup (photoKey "John Smith") = some p → p ≠ "" →
          c'.profilePhoto = some p))) :=
  ⟨(claim9_photo_match_frame _ _).1,
   (claim9_photo_match_frame _ _).2 0 _ (by decide)⟩

/-- Claim C8: every CSV or JSON import call that finishes without a
pipeline-level error ends with a progress snapshot whose status is
`completed` and whose `current` and `total` both equal the number of
accepted records. -/
theorem claim8_completion_progress :
    (∀ (text : String) (now : Nat) (r : BatchImportResult),
        (importFromCSV text now).result = .ok r →
        (importFromCSV text now).progress.getLast? =
          some ⟨r.success.length, r.success.length, .completed,
            "Imported " ++ toString r.success.length ++ " cards successfully"⟩) ∧
    (∀ (input : JsonInput) (now : Nat) (r : BatchImportResult),
        (importFromJSON input now).result = .ok r →
        (importFromJSON input now).progress.getLast? =
          some ⟨r.success.length, r.success.length, .completed,
            "Imported " ++ toString r.success.length ++ " cards successfully"⟩) := by
  constructor
  · intro text now r hres
    cases hls : csvLines text with
    | nil => simp [importFromCSV, hls] at hres
    | cons headerLine dataLines =>
      simp only [importFromCSV, hls] at hres ⊢
      by_cases hmiss : (List.filter (fun f =>
          !((List.map (fun h => toLowerStr (strTrim h)) (splitChar headerLine ',')).contains f))
          requiredFields).isEmpty = true
      · rw [if_pos hmiss] at hres ⊢
        injection hres with h
        subst h
        dsimp only
        rw [show ∀ (a : BatchProgress) (xs ys : List BatchProgress),
            a :: xs ++ ys = (a :: xs) ++ ys from fun _ _ _ => rfl,
          List.getLast?_concat]
      · rw [if_neg hmiss] at hres
        exact Except.noConfusion hres
  · intro input now r hres
    cases hit : jsonItems input with
    | none => simp [importFromJSON, hit] at hres
    | some items =>
      simp only [importFromJSON, hit] at hres ⊢
      injection hres with h
      subst h
      rw [show ∀ (a : BatchProgress) (xs ys : List BatchProgress),
          a :: xs ++ ys = (a :: xs) ++ ys from fun _ _ _ => rfl,
        List.getLast?_concat]

/-- Closed instance of claim C8: a header-only CSV import and an empty JSON
array both complete with `current = total = 0` accepted records. -/
theorem claim8_witness :
    ((importFromCSV "name,position,nationality" 0).result = .ok emptyBatchResult ∧
      (importFromCSV "name,position,nationality" 0).progress.getLast? =
        some ⟨emptyBatchResult.success.length, emptyBatchResult.success.length,
          .completed, "Imported " ++ toString emptyBatchResult.success.length ++
            " cards successfully"⟩) ∧
    ((importFromJSON (.arr []) 0).result = .ok emptyBatchResult ∧
      (importFromJSON (.arr []) 0).progress.getLast? =
        some ⟨emptyBatchResult.success.length, emptyBatchResult.success.length,
          .completed, "Imported " ++ toString emptyBatchResult.success.length ++
            " cards successfully"⟩) :=
  ⟨⟨rfl, claim8_completion_progress.1 "name,position,nationality" 0 emptyBatchResult rfl⟩,
   ⟨rfl, claim8_completion_progress.2 (.arr []) 0 emptyBatchResult rfl⟩⟩

/-- Claim C2: a row/item that fails to parse or fails validation is recorded
as a row-level error with its row index and its raw input (the row's parsed
cells for CSV validation failures, the raw item for JSON), and every other
row is still processed — the accepted and rejected lists are exactly the
independent per-row verdicts, so one bad row never affects the rest; whereas
a pipeline-level failure (empty CSV, a missing required header, an
unrecognized JSON shape) aborts the call with a final `error` progress
snapshot and no accepted records (the result is the thrown message). -/
theorem claim2_partial_failure_and_abort :
    (∀ (text : String) (now : Nat) (headerLine : String) (dataLines : List String),
        csvLines text = headerLine :: dataLines →
        (List.filter (fun f =>
            !((List.map (fun h => toLowerStr (strTrim h)) (splitChar headerLine ',')).contains f))
          requiredFields).isEmpty = true →
        ∃ r, (importFromCSV text now).result = .ok r ∧
          r.success = csvExpSuccess
            ((splitChar headerLine ',').map (fun h => toLowerStr (strTrim h))) now
            (enumFrom 1 dataLines) ∧
          r.errors = csvExpErrors
            ((splitChar headerLine ',').map (fun h => toLowerStr (strTrim h))) now
            (enumFrom 1 dataLines)) ∧
    (∀ (text : String) (now : Nat),
        csvLines text = [] →
        (importFromCSV text now).result = .error "Empty CSV file" ∧
        ∃ p, (importFromCSV text now).progress.getLast? = some p ∧
          p.status = .error) ∧
    (∀ (text : String) (now : Nat) (headerLine : String) (dataLines : List String),
        csvLines text = headerLine :: dataLines →
        (List.filter (fun f =>
            !((List.map (fun h => toLowerStr (strTrim h)) (splitChar headerLine ',')).contains f))
          requiredFields).isEmpty = false →
        (∃ msg, (importFromCSV text now).result = .error msg) ∧
        ∃ p, (importFromCSV text now).progress.getLast? = some p ∧
          p.status = .error) ∧
    (∀ (input : JsonInput) (items : List JItem) (now : Nat),
        jsonItems input = some items →
        ∃ r, (importFromJSON input now).result = .ok r ∧
          r.success = jsonExpSuccess now (enumFrom 0 items) ∧
          r.errors = jsonExpErrors now (enumFrom 0 items)) ∧
    (∀ (input : JsonInput) (now : Nat),
        jsonItems input = none →
        (∃ msg, (importFromJSON input now).result = .error msg) ∧
        ∃ p, (importFromJSON input now).progress.getLast? = some p ∧
          p.status = .error) := by
  refine ⟨?_, ?_, ?_, ?_, ?_⟩
  · intro text now headerLine dataLines hls hmiss
    simp only [importFromCSV, hls]
    rw [if_pos hmiss]
    refine ⟨_, rfl, ?_, ?_⟩
    · rw [csvLoop_characterization]
      simp [emptyBatchResult]
    · rw [csvLoop_characterization]
      simp [emptyBatchResult]
  · intro text now hls
    simp only [importFromCSV, hls]
    constructor
    · trivial
    · exact ⟨_, rfl, rfl⟩
  · intro text now headerLine dataLines hls hmiss
    simp only [importFromCSV, hls]
    have hneg : ¬ ((List.filter (fun f =>
        !((List.map (fun h => toLowerStr (strTrim h)) (splitChar headerLine ',')).contains f))
        requiredFields).isEmpty = true) := by
      rw [hmiss]
      exact Bool.false_ne_true
    rw [if_neg hneg]
    exact ⟨⟨_, rfl⟩, ⟨_, rfl, rfl⟩⟩
  · intro input items now hit
    simp only [importFromJSON, hit]
    refine ⟨_, rfl, ?_, ?_⟩
    · rw [jsonLoop_characterization]
      simp [emptyBatchResult]
    · rw [jsonLoop_characterization]
      simp [emptyBatchResult]
  · intro input now hit
    simp only [importFromJSON, hit]
    exact ⟨⟨_, rfl⟩, ⟨_, rfl, rfl⟩⟩

/-- Closed instance of claim C2 covering all five parts. -/
theorem claim2_witness :
    (∃ r, (importFromCSV c2CsvText 0).result = .ok r ∧
      r.success = csvExpSuccess c2Headers 0 (enumFrom 1 ["Bob,DEV,FR", ",QA,US"]) ∧
      r.errors = csvExpErrors c2Headers 0 (enumFrom 1 ["Bob,DEV,FR", ",QA,US"])) ∧
    ((importFromCSV "" 0).result = .error "Empty CSV file" ∧
      ∃ p, (importFromCSV "" 0).progress.getLast? = some p ∧
        p.status = .error) ∧
    ((∃ msg, (importFromCSV "position,nationality\nBob,DEV,FR" 0).result = .error msg) ∧
      ∃ p, (importFromCSV "position,nationality\nBob,DEV,FR" 0).progress.getLast? = some p ∧
        p.status = .error) ∧
    (∃ r, (importFromJSON (.playersObj c2Items) 0).result = .ok r ∧
      r.success = jsonExpSuccess 0 (enumFrom 0 c2Items) ∧
      r.errors = jsonExpErrors 0 (enumFrom 0 c2Items)) ∧
    ((∃ msg, (importFromJSON .otherShape 0).result = .error msg) ∧
      ∃ p, (importFromJSON .otherShape 0).progress.getLast? = some p ∧
        p.status = .error) :=
  ⟨claim2_partial_failure_and_abort.1 c2CsvText 0 "name,position,nationality"
      ["Bob,DEV,FR", ",QA,US"] rfl rfl,
   claim2_partial_failure_and_abort.2.1 "" 0 rfl,
   claim2_partial_failure_and_abort.2.2.1 "position,nationality\nBob,DEV,FR" 0
      "position,nationality" ["Bob,DEV,FR"] rfl rfl,
   claim2_partial_failure_and_abort.2.2.2.1 (.playersObj c2Items) c2Items 0 rfl,
   claim2_partial_failure_and_abort.2.2.2.2 .otherShape 0 rfl⟩

